import Mathlib

/-!
# Verification of the LANCOM LMC dashboard SNMP client-discovery engine

Shallow embedding of the SNMP helpers of `server.js`:
the walk executor `runSnmpWalk`, the MAC decoders `macFromDecOid` and
`macFromHexStr`, the table builders and the resolver `snmpMacTable` /
`snmpLancomWlanClients`, and the connectivity test (`type = 'test'`).

JavaScript strings are modelled as `List Char` (ASCII scope: the
whitespace class and case folding are modelled for the ASCII range, which
covers every string the engine manipulates).  The JS regexes are embedded
via a small backtracking regex engine (`Re`) whose alternative order
mirrors the greedy/lazy priorities of the JS engine, so that
`String.prototype.match` (first, leftmost match) is `Re.find`.
-/

set_option maxHeartbeats 1000000
set_option linter.unusedVariables false

namespace LmcWeb

/-! ## JS string primitives -/

/-- The JS `\s` class / `trim()` whitespace, restricted to ASCII:
space, tab, newline, carriage return, vertical tab, form feed. -/
def isJsSpace (c : Char) : Bool :=
  c = ' ' || c = '\t' || c = '\n' || c = '\r' || c = Char.ofNat 11 || c = Char.ofNat 12

/-- Numeric value of a decimal digit string (leftmost digit most significant). -/
def decVal (l : List Char) : Nat :=
  l.foldl (fun a c => 10 * a + (c.toNat - 48)) 0

/-- JS `String.prototype.split` with a single-character separator. -/
def splitOnChar (sep : Char) : List Char → List (List Char)
  | [] => [[]]
  | c :: r =>
    if c = sep then [] :: splitOnChar sep r
    else
      match splitOnChar sep r with
      | [] => [[c]]
      | t :: ts => (c :: t) :: ts

/-- JS `Array.prototype.join` with a single-character separator. -/
def joinChar (sep : Char) : List (List Char) → List Char
  | [] => []
  | [x] => x
  | x :: r => x ++ sep :: joinChar sep r

/-- JS `String.prototype.trim` (ASCII whitespace). -/
def jsTrim (s : List Char) : List Char :=
  ((s.dropWhile (isJsSpace ·)).reverse.dropWhile (isJsSpace ·)).reverse

/-- Longest prefix of decimal digits, as a value; `none` when there is no digit
(the `NaN` result of `parseInt`). -/
def digitsVal? (l : List Char) : Option Nat :=
  let ds := l.takeWhile Char.isDigit
  if ds.isEmpty then none else some (decVal ds)

/-- JS `parseInt(s, 10)`: skip leading whitespace, optional sign, then the
longest decimal-digit prefix; `none` models `NaN`. -/
def jsParseIntDec (s : List Char) : Option Int :=
  match s.dropWhile (isJsSpace ·) with
  | [] => none
  | c :: r =>
    if c = '-' then (digitsVal? r).map (fun v => -(v : Int))
    else if c = '+' then (digitsVal? r).map (fun v => (v : Int))
    else (digitsVal? (c :: r)).map (fun v => (v : Int))

/-- Lowercase hexadecimal digit for a value below 16. -/
def hexDigitChar (n : Nat) : Char :=
  if n < 10 then Char.ofNat (48 + n) else Char.ofNat (87 + n)

/-- Digit-string rendering in base `b`, with explicit fuel (structural, so
that concrete instances reduce); `fuel ≥ n` always suffices since `n / b`
strictly decreases. -/
def natToBaseAux (digit : Nat → Char) (b : Nat) : Nat → Nat → List Char
  | 0, n => [digit n]
  | fuel + 1, n =>
    if n < b then [digit n]
    else natToBaseAux digit b fuel (n / b) ++ [digit (n % b)]

/-- Lowercase hexadecimal rendering of a natural number (JS `n.toString(16)`
for non-negative `n`). -/
def natToHex (n : Nat) : List Char := natToBaseAux hexDigitChar 16 n n

/-- Decimal rendering of a natural number (JS `String(n)` / template literal). -/
def natToDec (n : Nat) : List Char :=
  natToBaseAux (fun d => Char.ofNat (48 + d)) 10 n n

/-- JS `Number.prototype.toString(16)` applied to a `parseInt` result:
`NaN` renders as `"NaN"`, negative values with a leading minus sign. -/
def jsHexString : Option Int → List Char
  | none => ['N', 'a', 'N']
  | some i => if i < 0 then '-' :: natToHex i.natAbs else natToHex i.toNat

/-- JS `String.prototype.padStart(2, '0')`. -/
def padStart2 (s : List Char) : List Char :=
  if s.length < 2 then List.replicate (2 - s.length) '0' ++ s else s

/-- Split into consecutive pairs: JS `hex.match(/.{2}/g)` on an even-length
string with no line terminators. -/
def chunk2 : List Char → List (List Char)
  | a :: b :: r => [a, b] :: chunk2 r
  | _ => []

/-! ## A backtracking regex engine

Alternatives are produced in the JS engine's priority order
(greedy = longest first, lazy = shortest first, `alt` = left first), so the
head of `Re.run` is the match the JS engine commits to, and `Re.find` is
`String.prototype.match` without the `g` flag (first match, leftmost start,
captures in group order). -/

inductive Re where
  | eps
  | cls (p : Char → Bool)
  | seq (a b : Re)
  | alt (a b : Re)
  | star (p : Char → Bool)
  | starL (p : Char → Bool)
  | group (r : Re)
  | eol (multiline : Bool)

/-- Remainders after consuming `k` characters of the maximal `p`-run,
longest consumption first (greedy `p*`). -/
def prefixesDesc (p : Char → Bool) (s : List Char) : List (List Char) :=
  let n := (s.takeWhile p).length
  (List.range (n + 1)).reverse.map (fun k => s.drop k)

/-- Same remainders, shortest consumption first (lazy `p*?`). -/
def prefixesAsc (p : Char → Bool) (s : List Char) : List (List Char) :=
  let n := (s.takeWhile p).length
  (List.range (n + 1)).map (fun k => s.drop k)

/-- All ways to match `re` against a prefix of `s`, in backtracking priority
order; each result is the remaining suffix plus the captures of the groups
inside `re`, in group order. -/
def Re.run : Re → List Char → List (List Char × List (List Char))
  | .eps, s => [(s, [])]
  | .cls _, [] => []
  | .cls p, c :: r => if p c then [(r, [])] else []
  | .seq a b, s =>
    (a.run s).flatMap fun x => (b.run x.1).map fun y => (y.1, x.2 ++ y.2)
  | .alt a b, s => a.run s ++ b.run s
  | .star p, s => (prefixesDesc p s).map fun t => (t, [])
  | .starL p, s => (prefixesAsc p s).map fun t => (t, [])
  | .group r, s =>
    (r.run s).map fun x => (x.1, s.take (s.length - x.1.length) :: x.2)
  | .eol ml, s =>
    if s.isEmpty || (ml && s.head? = some '\n') then [(s, [])] else []

/-- Literal string. -/
def Re.lit (s : List Char) : Re :=
  s.foldr (fun c r => .seq (.cls (· = c)) r) .eps

/-- Sequence of regexes. -/
def Re.cat (l : List Re) : Re := l.foldr .seq .eps

/-- Greedy `p+`. -/
def Re.plus (p : Char → Bool) : Re := .seq (.cls p) (.star p)

/-- Lazy `p+?`. -/
def Re.plusL (p : Char → Bool) : Re := .seq (.cls p) (.starL p)

/-- Greedy `r?`. -/
def Re.opt (r : Re) : Re := .alt r .eps

/-- First match trying successive start positions; returns the captures. -/
def Re.searchAux (re : Re) : List Char → Option (List (List Char))
  | [] => ((re.run []).head?).map (·.2)
  | c :: r =>
    match (re.run (c :: r)).head? with
    | some x => some x.2
    | none => re.searchAux r

/-- JS `String.prototype.match` (no `g` flag): captures of the first match,
`none` when the string does not match. -/
def Re.find (re : Re) (s : List Char) : Option (List (List Char)) :=
  re.searchAux s

/-! ## Character classes of the source regexes -/

/-- `\d` -/
def isDig (c : Char) : Bool := c.isDigit

/-- `[\d.]` -/
def isDigDot (c : Char) : Bool := c.isDigit || c = '.'

/-- `[\dA-Fa-f ]` -/
def isHexSp (c : Char) : Bool :=
  c.isDigit || ('A' ≤ c && c ≤ 'F') || ('a' ≤ c && c ≤ 'f') || c = ' '

/-- `[^\n"]` -/
def isNotNlQuote (c : Char) : Bool := c ≠ '\n' && c ≠ '"'

/-- JS `.` (anything but a line terminator). -/
def isJsDot (c : Char) : Bool := c ≠ '\n' && c ≠ '\r'

/-! ## The regexes of `server.js`, one `Re` value per source regex -/

/-- `/STRING:\s*"?([^\n"]+)"?\s*$/m`  (connectivity test, line 324). -/
def sysDescrRe : Re := Re.cat
  [Re.lit "STRING:".data, .star (isJsSpace ·), Re.opt (.cls (· = '"')),
   .group (Re.plus isNotNlQuote), Re.opt (.cls (· = '"')),
   .star (isJsSpace ·), .eol true]

/-- `/4\.22\.1\.2\.\d+\.([\d.]+)\s*=\s*(?:Hex-STRING:\s*)?([\dA-Fa-f ]+)\s*$/`
(ARP walk lines, lines 78 and 177). -/
def arpRe : Re := Re.cat
  [Re.lit "4.22.1.2.".data, Re.plus isDig, .cls (· = '.'),
   .group (Re.plus isDigDot), .star (isJsSpace ·), .cls (· = '='),
   .star (isJsSpace ·),
   Re.opt (Re.cat [Re.lit "Hex-STRING:".data, .star (isJsSpace ·)]),
   .group (Re.plus isHexSp), .star (isJsSpace ·), .eol false]

/-- `/2356\.13\.1\.3\.32\.1\.3\.([\d.]+)\s*=\s*(?:STRING:\s*)?\"?([^"\n]+?)\"?\s*$/`
(SSID walk lines, line 88). -/
def ssidRe : Re := Re.cat
  [Re.lit "2356.13.1.3.32.1.3.".data, .group (Re.plus isDigDot),
   .star (isJsSpace ·), .cls (· = '='), .star (isJsSpace ·),
   Re.opt (Re.cat [Re.lit "STRING:".data, .star (isJsSpace ·)]),
   Re.opt (.cls (· = '"')), .group (Re.plusL isNotNlQuote),
   Re.opt (.cls (· = '"')), .star (isJsSpace ·), .eol false]

/-- `/2356\.13\.1\.3\.4\.1\.1\.(\d+)\.([\d.]+)\s*=\s*(.*)/`
(WLAN client table lines, line 99). -/
def clientRe : Re := Re.cat
  [Re.lit "2356.13.1.3.4.1.1.".data, .group (Re.plus isDig), .cls (· = '.'),
   .group (Re.plus isDigDot), .star (isJsSpace ·), .cls (· = '='),
   .star (isJsSpace ·), .group (.star isJsDot)]

/-- `/17\.4\.3\.1\.2\.([\d.]+)\s*=\s*INTEGER:\s*(\d+)/`
(classic Bridge-MIB forwarding lines, line 143). -/
def fdbRe : Re := Re.cat
  [Re.lit "17.4.3.1.2.".data, .group (Re.plus isDigDot), .star (isJsSpace ·),
   .cls (· = '='), .star (isJsSpace ·), Re.lit "INTEGER:".data,
   .star (isJsSpace ·), .group (Re.plus isDig)]

/-- `/17\.7\.1\.2\.2\.1\.2\.\d+\.([\d.]+)\s*=\s*INTEGER:\s*(\d+)/`
(Q-Bridge-MIB forwarding lines, line 151; the `\d+\.` is the VLAN id,
matched but not captured). -/
def qfdbRe : Re := Re.cat
  [Re.lit "17.7.1.2.2.1.2.".data, Re.plus isDig, .cls (· = '.'),
   .group (Re.plus isDigDot), .star (isJsSpace ·), .cls (· = '='),
   .star (isJsSpace ·), Re.lit "INTEGER:".data, .star (isJsSpace ·),
   .group (Re.plus isDig)]

/-- `/17\.1\.4\.1\.2\.(\d+)\s*=\s*INTEGER:\s*(\d+)/`
(bridge port → ifIndex lines, line 163). -/
def bpRe : Re := Re.cat
  [Re.lit "17.1.4.1.2.".data, .group (Re.plus isDig), .star (isJsSpace ·),
   .cls (· = '='), .star (isJsSpace ·), Re.lit "INTEGER:".data,
   .star (isJsSpace ·), .group (Re.plus isDig)]

/-- `/31\.1\.1\.1\.1\.(\d+)\s*=\s*(?:STRING:\s*)?"?([^"\n]+?)"?\s*$/`
(ifName lines, line 170). -/
def ifNameRe : Re := Re.cat
  [Re.lit "31.1.1.1.1.".data, .group (Re.plus isDig), .star (isJsSpace ·),
   .cls (· = '='), .star (isJsSpace ·),
   Re.opt (Re.cat [Re.lit "STRING:".data, .star (isJsSpace ·)]),
   Re.opt (.cls (· = '"')), .group (Re.plusL isNotNlQuote),
   Re.opt (.cls (· = '"')), .star (isJsSpace ·), .eol false]

/-- `/(\d+)/` (first digit run in a value, line 106). -/
def digitRunRe : Re := .group (Re.plus isDig)

/-! ## The Walk Executor (`runSnmpWalk`, lines 40–51) -/

/-- Selection of the external walking tool by SNMP version (line 42). -/
def snmpCmd (version : String) : String :=
  if version = "1" then "snmpwalk" else "snmpbulkwalk"

/-- Argument vector handed to the external tool (line 43): protocol-level
timeout `-t 5`, retry count `-r 1`. -/
def snmpArgs (host community version oid : String) : List String :=
  ["-v", version, "-c", community, "-On", "-t", "5", "-r", "1", host, oid]

/-- The orchestration-layer wall-clock timeout (line 47), in milliseconds. -/
def wallClockTimeoutMs : Nat := 12000

/-- Behaviour of the spawned external process, as observed by the executor's
event handlers:
* `spawnError` — the process failed to start (the `error` event fires);
* `closes exitCode stdout` — the process closes on its own before the
  `wallClockTimeoutMs` timer fires, with the given exit code, having written
  `stdout` to its standard output;
* `killedAtTimeout stdoutSoFar` — the process is still running when the
  timer fires, is killed, and `stdoutSoFar` is what it had written by then
  (the `close` event then fires for the killed process). -/
inductive ProcBehavior where
  | spawnError
  | closes (exitCode : Int) (stdout : String)
  | killedAtTimeout (stdoutSoFar : String)
deriving DecidableEq, Repr

/-- The text the accumulated `data` handler holds when `close` fires
(empty when the process never started). -/
def ProcBehavior.collectedStdout : ProcBehavior → String
  | .spawnError => ""
  | .closes _ out => out
  | .killedAtTimeout out => out

/-- `runSnmpWalk` (lines 40–51): the promise settles with `.ok` when it
resolves and `.error` when it rejects.  The `close` handler resolves the
accumulated stdout regardless of the exit code; the `error` handler resolves
the empty string; `reject` is never invoked. -/
def runSnmpWalk (_host _community _version _oid : String)
    (b : ProcBehavior) : Except String String :=
  match b with
  | .spawnError => .ok ""
  | .closes _ out => .ok out
  | .killedAtTimeout out => .ok out

/-! ## MAC decoders (lines 53–63) -/

/-- `macFromDecOid` (lines 53–57) on `List Char`. -/
def macFromDecOidL (suffix : List Char) : Option (List Char) :=
  let parts := splitOnChar '.' suffix
  if parts.length = 6 then
    some (joinChar ':' (parts.map fun n => padStart2 (jsHexString (jsParseIntDec n))))
  else none

/-- `macFromDecOid(suffix)` (lines 53–57): split on dots, require exactly 6
components, render each through `parseInt(·, 10).toString(16).padStart(2,'0')`,
join with colons.  `none` models the `null` return. -/
def macFromDecOid (suffix : String) : Option String :=
  (macFromDecOidL suffix.data).map fun l => { data := l }

/-- The stripped, lower-cased form `str.replace(/[:\s]/g, '').toLowerCase()`
(line 60). -/
def stripLower (s : List Char) : List Char :=
  (s.filter fun c => !(c = ':' || isJsSpace c)).map Char.toLower

/-- `macFromHexStr` (lines 59–63) on `List Char`. -/
def macFromHexStrL (s : List Char) : Option (List Char) :=
  let hex := stripLower s
  if hex.length = 12 then some (joinChar ':' (chunk2 hex)) else none

/-- `macFromHexStr(str)` (lines 59–63): strip colons/whitespace, lower-case,
require length exactly 12, split into byte pairs rejoined with colons.
`none` models the `null` return. -/
def macFromHexStr (s : String) : Option String :=
  (macFromHexStrL s.data).map fun l => { data := l }

/-! ## JS object model: string-keyed objects as insertion-ordered
association lists -/

/-- `obj[k]` (as `Option`). -/
def getJs {α : Type} (l : List (List Char × α)) (k : List Char) : Option α :=
  (l.find? fun e => e.1 = k).map (·.2)

/-- `obj[k] = v`: update in place when the key exists, append otherwise
(JS string-keyed property insertion order). -/
def setJs {α : Type} (l : List (List Char × α)) (k : List Char) (v : α) :
    List (List Char × α) :=
  match l with
  | [] => [(k, v)]
  | e :: r => if e.1 = k then (k, v) :: r else e :: setJs r k v

/-- The JS truthiness coercion `x || null` on an optional string: `null` and
the empty string are falsy. -/
def jsOrNull : Option (List Char) → Option (List Char)
  | some s => if s.isEmpty then none else some s
  | none => none

/-! ## Result types -/

/-- One row of the final client table. -/
structure ClientTableEntry where
  mac : String
  bridgePort : Nat
  portName : String
  ip : Option String
deriving DecidableEq, Repr

/-- The shape returned by both terminal strategies. -/
structure ClientTableResult where
  entries : List ClientTableEntry
  count : Nat
  countWithIp : Nat
  hasMacTable : Bool
  source : String
deriving DecidableEq, Repr

/-! ## Sorting: `localeCompare(…, undefined, { numeric: true })`

The source sorts entries with
`a.portName.localeCompare(b.portName, undefined, { numeric: true })`.
We model the numeric collation for the ASCII strings the engine produces:
a string is keyed as a sequence of tokens — a maximal digit run compares by
its numeric value and sorts before any non-digit character, other characters
compare case-folded — followed by a code-point tiebreak.  JS `Array.sort`
(stable since ES2019) with a consistent comparator coincides with a stable
insertion sort by the same comparator. -/

/-- Fuel-indexed worker for `numericKey` (structural, so that concrete
instances reduce). -/
def numericKeyAux : Nat → List Char → List Nat
  | 0, _ => []
  | _ + 1, [] => []
  | fuel + 1, c :: r =>
    if c.isDigit then
      1 :: decVal ((c :: r).takeWhile Char.isDigit)
        :: numericKeyAux fuel ((c :: r).dropWhile Char.isDigit)
    else 2 :: c.toLower.toNat :: numericKeyAux fuel r

/-- Token sequence of the numeric collation: a maximal digit run becomes
`1, value`, any other character `2, folded code point`.  Each step consumes
at least one character, so `s.length` is enough fuel. -/
def numericKey (s : List Char) : List Nat := numericKeyAux s.length s

/-- Full collation key: primary numeric-aware tokens, then an end marker,
then a raw code-point tiebreak (injective on strings). -/
def sortKey (s : List Char) : List Nat :=
  numericKey s ++ 0 :: s.map Char.toNat

/-- Lexicographic `≤` on `List Nat`. -/
def lexLe : List Nat → List Nat → Bool
  | [], _ => true
  | _ :: _, [] => false
  | a :: as, b :: bs => if a < b then true else if b < a then false else lexLe as bs

/-- The comparator `a.portName.localeCompare(b.portName, undefined,
{numeric: true}) ≤ 0`, as modelled above. -/
def strNumLe (a b : String) : Bool := lexLe (sortKey a.data) (sortKey b.data)

/-- Sort order of final entries (lines 119 and 190). -/
def entryLe (a b : ClientTableEntry) : Prop :=
  strNumLe a.portName b.portName = true

instance : DecidableRel entryLe := fun a b => by
  unfold entryLe; infer_instance

/-- `entries.sort(...)` (lines 119 and 190): a stable sort by `entryLe`. -/
def sortEntries (l : List ClientTableEntry) : List ClientTableEntry :=
  List.insertionSort entryLe l

/-- JS truthiness of the `ip` field as used by `entries.filter(e => e.ip)`:
`null` and the empty string are falsy. -/
def ipTruthy : Option String → Bool
  | some s => !s.data.isEmpty
  | none => false

/-- Construction of the terminal result object (lines 120–126 / 197–203):
`count` is `entries.length`, `countWithIp` is `entries.filter(e => e.ip).length`,
`hasMacTable` is `entries.length > 0`. -/
def mkResult (entries : List ClientTableEntry) (source : String) :
    ClientTableResult :=
  { entries := entries
    count := entries.length
    countWithIp := (entries.filter fun e => ipTruthy e.ip).length
    hasMacTable := decide (0 < entries.length)
    source := source }

/-! ## Table builders -/

/-- ARP builder (lines 76–83 and 175–182): `macToIp[mac] = ip` for every
line matching `arpRe` whose OID suffix has four components and whose value
decodes to a MAC. -/
def buildMacToIp (arpOut : String) : List (List Char × List Char) :=
  (splitOnChar '\n' arpOut.data).foldl
    (fun acc line =>
      match arpRe.find line with
      | some [ipStr, hexStr] =>
        if (splitOnChar '.' ipStr).length = 4 then
          match macFromHexStrL (jsTrim hexStr) with
          | some mac => setJs acc mac ipStr
          | none => acc
        else acc
      | _ => acc)
    []

/-- SSID builder (lines 86–93): `macToSsid[mac] = ssid` for every line
matching `ssidRe` whose OID suffix decodes to a MAC. -/
def buildMacToSsid (ssidOut : String) : List (List Char × List Char) :=
  (splitOnChar '\n' ssidOut.data).foldl
    (fun acc line =>
      match ssidRe.find line with
      | some [suffix, val] =>
        match macFromDecOidL suffix with
        | some mac => setJs acc mac (jsTrim val)
        | none => acc
      | _ => acc)
    []

/-- Per-client record of the WLAN client table (line 104). -/
structure WlanClient where
  mac : List Char
  channel : Option Nat
  band : Option Nat
deriving DecidableEq, Repr

/-- One line of the WLAN client walk (lines 99–105): column index, decoded
MAC, and the trimmed value text. -/
def parseClientLine (line : List Char) : Option (Nat × List Char × List Char) :=
  match clientRe.find line with
  | some [colS, suffix, rest] =>
    (macFromDecOidL suffix).map fun mac => (decVal colS, mac, jsTrim rest)
  | _ => none

/-- In-place field update of the client record stored under `mac`. -/
def updateClient (acc : List (List Char × WlanClient)) (mac : List Char)
    (f : WlanClient → WlanClient) : List (List Char × WlanClient) :=
  acc.map fun e => if e.1 = mac then (e.1, f e.2) else e

/-- Channel/band update of one client-table line (lines 105–108): the value
must contain a digit run (`val.match(/(\d+)/)`); column 2 sets the channel,
column 3 the band, any other column leaves the record untouched. -/
def clientApply (acc1 : List (List Char × WlanClient)) (mac : List Char)
    (col : Nat) (val : List Char) : List (List Char × WlanClient) :=
  match digitRunRe.find val with
  | some [num] =>
    if col = 2 then
      updateClient acc1 mac fun c => { c with channel := some (decVal num) }
    else if col = 3 then
      updateClient acc1 mac fun c => { c with band := some (decVal num) }
    else acc1
  | _ => acc1

/-- One step of the client-table fold (lines 97–109): create the record on
first sight of a MAC, then apply the column update. -/
def clientStep (acc : List (List Char × WlanClient)) (line : List Char) :
    List (List Char × WlanClient) :=
  match parseClientLine line with
  | none => acc
  | some (col, mac, val) =>
    clientApply
      (if (getJs acc mac).isSome then acc else acc ++ [(mac, ⟨mac, none, none⟩)])
      mac col val

/-- The `clients` object after scanning the whole client walk (lines 96–109),
in insertion order. -/
def buildClients (clientOut : String) : List (List Char × WlanClient) :=
  (splitOnChar '\n' clientOut.data).foldl clientStep []

/-- `const ssid = macToSsid[c.mac] || ''; ssid ? `WLAN: ${ssid}` : 'WLAN'`
(lines 112–113): an absent *or empty* SSID is falsy. -/
def wlanBase (ssidMap : List (List Char × List Char)) (mac : List Char) :
    List Char :=
  let ssid := (getJs ssidMap mac).getD []
  if ssid.isEmpty then "WLAN".data else "WLAN: ".data ++ ssid

/-- `if (c.band) portName += c.band === 1 ? ' (2.4G)' : c.band === 2 ?
' (5G)' : ''` (line 114): a null *or zero* band is falsy. -/
def wlanBandSfx : Option Nat → List Char
  | some b =>
    if b ≠ 0 then
      (if b = 1 then " (2.4G)".data else if b = 2 then " (5G)".data else [])
    else []
  | none => []

/-- `if (c.channel) portName += ` CH${c.channel}`` (line 115): a null *or
zero* channel is falsy. -/
def wlanChSfx : Option Nat → List Char
  | some v => if v ≠ 0 then " CH".data ++ natToDec v else []
  | none => []

/-- Entry synthesis of the WLAN fallback (lines 111–117): port name
`"WLAN: " + ssid` when a truthy SSID resolved (else `"WLAN"`), band suffix
for truthy band 1 / 2, channel suffix for truthy channel, `bridgePort = 0`,
IP from the ARP map or `null`. -/
def wlanEntryOf (ssidMap ipMap : List (List Char × List Char))
    (c : WlanClient) : ClientTableEntry :=
  { mac := { data := c.mac }
    bridgePort := 0
    portName :=
      { data := wlanBase ssidMap c.mac ++ wlanBandSfx c.band ++ wlanChSfx c.channel }
    ip := (jsOrNull (getJs ipMap c.mac)).map fun l => { data := l } }

/-- `snmpLancomWlanClients` (lines 68–127) as a function of the text the
three concurrent walks resolve to (client table, SSID table, ARP table). -/
def snmpLancomWlanClients (clientOut ssidOut arpOut : String) :
    ClientTableResult :=
  let macToIp := buildMacToIp arpOut
  let macToSsid := buildMacToSsid ssidOut
  let clients := buildClients clientOut
  let entries := sortEntries (clients.map fun e => wlanEntryOf macToSsid macToIp e.2)
  mkResult entries "wlan-clients"

/-- Classic Bridge-MIB pass (lines 142–145): last write wins. -/
def buildClassicFdb (fdbOut : String) : List (List Char × Nat) :=
  (splitOnChar '\n' fdbOut.data).foldl
    (fun acc line =>
      match fdbRe.find line with
      | some [suffix, port] =>
        match macFromDecOidL suffix with
        | some mac => setJs acc mac (decVal port)
        | none => acc
      | _ => acc)
    []

/-- One decoded Q-Bridge line: MAC (VLAN id discarded by the regex) and port. -/
def parseQLine (line : List Char) : Option (List Char × Nat) :=
  match qfdbRe.find line with
  | some [suffix, port] =>
    (macFromDecOidL suffix).map fun mac => (mac, decVal port)
  | _ => none

/-- The guarded write `if (mac && !macToBp[mac]) macToBp[mac] = port`
(line 155) for one decoded pair — a missing *or zero* stored port is falsy
and gets (over)written. -/
def qInsert (acc : List (List Char × Nat)) (p : List Char × Nat) :
    List (List Char × Nat) :=
  match getJs acc p.1 with
  | some v => if v = 0 then setJs acc p.1 p.2 else acc
  | none => setJs acc p.1 p.2

/-- One step of the Q-Bridge fold (lines 149–157). -/
def qStep (acc : List (List Char × Nat)) (line : List Char) :
    List (List Char × Nat) :=
  match parseQLine line with
  | none => acc
  | some p => qInsert acc p

/-- Q-Bridge-MIB fallback pass (lines 148–158). -/
def buildQFdb (qfdbOut : String) : List (List Char × Nat) :=
  (splitOnChar '\n' qfdbOut.data).foldl qStep []

/-- `macToBp` after both passes (lines 139–158): the Q-Bridge pass runs only
when the classic pass produced no key. -/
def macToBpOf (fdbOut qfdbOut : String) : List (List Char × Nat) :=
  let classic := buildClassicFdb fdbOut
  if classic.isEmpty then buildQFdb qfdbOut else classic

/-- Bridge port → ifIndex builder (lines 161–165); keys are the raw digit
strings matched from the OID. -/
def buildBpToIf (bpOut : String) : List (List Char × Nat) :=
  (splitOnChar '\n' bpOut.data).foldl
    (fun acc line =>
      match bpRe.find line with
      | some [bpStr, ifStr] => setJs acc bpStr (decVal ifStr)
      | _ => acc)
    []

/-- ifIndex → name builder (lines 168–172). -/
def buildIfNames (ifNameOut : String) : List (List Char × List Char) :=
  (splitOnChar '\n' ifNameOut.data).foldl
    (fun acc line =>
      match ifNameRe.find line with
      | some [idxStr, nameStr] => setJs acc idxStr (jsTrim nameStr)
      | _ => acc)
    []

/-- The synthesized fallback name `` `Port ${bp}` ``. -/
def portFallback (bp : Nat) : List Char := "Port ".data ++ natToDec bp

/-- Port-name resolution of the bridge join (lines 185–186):
`bpToIf[String(bp)]` must be truthy (present and non-zero) and
`ifNames[String(ifIdx)]` must be truthy (present and non-empty), otherwise
the synthesized `"Port " + bp` is used. -/
def bridgePortName (bpToIf : List (List Char × Nat))
    (ifNames : List (List Char × List Char)) (bp : Nat) : List Char :=
  match getJs bpToIf (natToDec bp) with
  | some i =>
    if i ≠ 0 then
      match getJs ifNames (natToDec i) with
      | some nm => if nm.isEmpty then portFallback bp else nm
      | none => portFallback bp
    else portFallback bp
  | none => portFallback bp

/-- The joined bridge entries before sorting (lines 184–188), in the
insertion order of `macToBp` (`Object.entries`). -/
def bridgeEntriesUnsorted (fdbOut qfdbOut bpOut ifNameOut arpOut : String) :
    List ClientTableEntry :=
  let macToBp := macToBpOf fdbOut qfdbOut
  let bpToIf := buildBpToIf bpOut
  let ifNames := buildIfNames ifNameOut
  let macToIp := buildMacToIp arpOut
  macToBp.map fun e =>
    { mac := { data := e.1 }
      bridgePort := e.2
      portName := { data := bridgePortName bpToIf ifNames e.2 }
      ip := (jsOrNull (getJs macToIp e.1)).map fun l => { data := l } }

/-- The sorted bridge entries (line 190). -/
def bridgeSorted (fdbOut qfdbOut bpOut ifNameOut arpOut : String) :
    List ClientTableEntry :=
  sortEntries (bridgeEntriesUnsorted fdbOut qfdbOut bpOut ifNameOut arpOut)

/-- `snmpMacTable` (lines 129–204) as a function of the text the five
concurrent walks resolve to, plus the text the three WLAN-fallback walks
would resolve to (the fallback re-issues its own walks, lines 69–73). -/
def snmpMacTable (fdbOut qfdbOut bpOut ifNameOut arpOut
    clientOut ssidOut wlanArpOut : String) : ClientTableResult :=
  let entries := bridgeSorted fdbOut qfdbOut bpOut ifNameOut arpOut
  if entries.isEmpty then snmpLancomWlanClients clientOut ssidOut wlanArpOut
  else mkResult entries "bridge"

/-! ## Connectivity test (lines 322–325) -/

/-- Result object of the `type = 'test'` branch. -/
structure TestResult where
  ok : Bool
  sysDescr : String
deriving DecidableEq, Repr

/-- The extraction `out.match(/STRING:\s*"?([^\n"]+)"?\s*$/m)` followed by
`m[1].trim()`. -/
def sysDescrExtract (out : String) : Option String :=
  match sysDescrRe.find out.data with
  | some (c :: _) => some { data := jsTrim c }
  | _ => none

/-- The `type = 'test'` branch (lines 323–325):
`{ ok: !!m, sysDescr: m ? m[1].trim() : (out.trim().slice(0, 200) || 'Keine Antwort') }`. -/
def snmpTest (out : String) : TestResult :=
  match sysDescrExtract out with
  | some s => ⟨true, s⟩
  | none =>
    let t := jsTrim out.data
    ⟨false, if t.isEmpty then "Keine Antwort" else { data := t.take 200 }⟩

/-- Spec-side rendering of a decimal octet as exactly two lowercase hex
digits. -/
def hexPair (n : Nat) : List Char := [hexDigitChar (n / 16), hexDigitChar (n % 16)]

/-- The decoded `(mac, port)` pairs of a Q-Bridge walk, in line order. -/
def qPairs (qfdbOut : String) : List (List Char × Nat) :=
  (splitOnChar '\n' qfdbOut.data).filterMap parseQLine

/-- The ports reported for one MAC by a Q-Bridge walk, in line order. -/
def qPortsOf (qfdbOut : String) (mac : List Char) : List Nat :=
  ((qPairs qfdbOut).filter fun e => e.1 = mac).map (·.2)

/-- Sample octet components used in concrete instances. -/
def sampleOctets : List (List Char) :=
  ["170".data, "187".data, "204".data, "221".data, "238".data, "255".data]

/-- Spec-side resolution of a stored port against the ports of later lines:
a stored non-zero port survives; a stored zero is replaced by the first
non-zero later port (or stays zero when every later port is zero). -/
def qCombine : Option Nat → List Nat → Option Nat
  | some v, ps => some (if v = 0 then ((ps.find? fun p => p != 0).getD 0) else v)
  | none, ps =>
    match ps with
    | [] => none
    | _ :: _ => some ((ps.find? fun p => p != 0).getD 0)

/-- Concrete Q-Bridge walk text: one MAC under VLAN 10 (port 3) and
VLAN 20 (port 7). -/
def qWalkTwoVlans : String :=
  "17.7.1.2.2.1.2.10.0.17.34.51.68.85 = INTEGER: 3\n17.7.1.2.2.1.2.20.0.17.34.51.68.85 = INTEGER: 7"

/-- Concrete Q-Bridge walk text: same MAC, first line reporting port 0,
second line port 7. -/
def qWalkZeroFirst : String :=
  "17.7.1.2.2.1.2.10.0.17.34.51.68.85 = INTEGER: 0\n17.7.1.2.2.1.2.20.0.17.34.51.68.85 = INTEGER: 7"

/-- Concrete classic Bridge-MIB walk text: one MAC on bridge port 2. -/
def fdbSampleWalk : String := "17.4.3.1.2.0.17.34.51.68.85 = INTEGER: 2"

/-- Concrete WLAN client walk: one MAC, channel 36 (column 2), band 2
(column 3). -/
def wlanClientWalk : String :=
  "2356.13.1.3.4.1.1.2.170.187.204.221.238.255 = INTEGER: 36\n2356.13.1.3.4.1.1.3.170.187.204.221.238.255 = INTEGER: 2"

/-- Concrete SSID walk: the same MAC carries SSID `"Guest"`. -/
def wlanSsidWalk : String :=
  "2356.13.1.3.32.1.3.170.187.204.221.238.255 = STRING: \"Guest\""

/-- Concrete ARP walk: the same MAC resolves to `10.0.0.5`. -/
def wlanArpWalk : String :=
  "4.22.1.2.5.10.0.0.5 = Hex-STRING: AA BB CC DD EE FF"

/-! ## Lemmas about the JS object model -/

theorem getJs_nil {α : Type} (k : List Char) :
    getJs ([] : List (List Char × α)) k = none := rfl

theorem getJs_cons {α : Type} (e : List Char × α) (r : List (List Char × α))
    (k : List Char) :
    getJs (e :: r) k = if e.1 = k then some e.2 else getJs r k := by
  by_cases h : e.1 = k <;> simp [getJs, List.find?_cons, h]

theorem getJs_setJs_self {α : Type} (l : List (List Char × α))
    (k : List Char) (v : α) : getJs (setJs l k v) k = some v := by
  induction l with
  | nil => simp [setJs, getJs_cons]
  | cons e r ih =>
    by_cases h : e.1 = k
    · simp [setJs, h, getJs_cons]
    · simp [setJs, h, getJs_cons, ih]

theorem getJs_setJs_ne {α : Type} (l : List (List Char × α))
    (k v_k : List Char) (v : α) (h : v_k ≠ k) :
    getJs (setJs l k v) v_k = getJs l v_k := by
  have h' : ¬(k = v_k) := fun he => h he.symm
  induction l with
  | nil => simp [setJs, getJs_cons, getJs_nil, h']
  | cons e r ih =>
    by_cases he : e.1 = k
    · subst he
      simp [setJs, getJs_cons, h']
    · simp [setJs, he, getJs_cons, ih]

theorem getJs_append {α : Type} (l l' : List (List Char × α)) (k : List Char) :
    getJs (l ++ l') k = (getJs l k).or (getJs l' k) := by
  induction l with
  | nil => simp [getJs_nil]
  | cons e r ih =>
    by_cases h : e.1 = k <;> simp [getJs_cons, h, ih]

/-- A key is present exactly when some stored pair carries it. -/
theorem getJs_isSome_iff_mem {α : Type} (l : List (List Char × α))
    (k : List Char) :
    (getJs l k).isSome = true ↔ ∃ p ∈ l, p.1 = k := by
  induction l with
  | nil =>
    rw [getJs_nil]
    constructor
    · intro h
      simp at h
    · rintro ⟨p, hp, _⟩
      exact absurd hp (List.not_mem_nil p)
  | cons e r ih =>
    rw [getJs_cons]
    by_cases h : e.1 = k
    · rw [if_pos h]
      simp only [Option.isSome_some, true_iff]
      exact ⟨e, List.mem_cons_self e r, h⟩
    · rw [if_neg h, ih]
      constructor
      · rintro ⟨p, hp, hk⟩
        exact ⟨p, List.mem_cons_of_mem _ hp, hk⟩
      · rintro ⟨p, hp, hk⟩
        rcases List.mem_cons.mp hp with rfl | hp'
        · exact absurd hk h
        · exact ⟨p, hp', hk⟩

/-! ## Character and rendering lemmas -/

theorem char_digit_bounds (c : Char) (h : c.isDigit = true) :
    48 ≤ c.toNat ∧ c.toNat ≤ 57 := by
  simp [Char.isDigit, Char.le_def] at h
  exact h

theorem char_digit_ne (c : Char) (h : c.isDigit = true) (d : Char)
    (hd : d.toNat < 48 ∨ 57 < d.toNat) : c ≠ d := by
  have hb := char_digit_bounds c h
  intro e
  subst e
  omega

theorem isJsSpace_of_digit (c : Char) (h : c.isDigit = true) :
    isJsSpace c = false := by
  simp [isJsSpace,
    char_digit_ne c h ' ' (by decide),
    char_digit_ne c h '\t' (by decide),
    char_digit_ne c h '\n' (by decide),
    char_digit_ne c h '\r' (by decide),
    char_digit_ne c h (Char.ofNat 11) (by decide),
    char_digit_ne c h (Char.ofNat 12) (by decide)]

/-- A digit string (nonempty, all decimal digits) parses to its decimal
value. -/
theorem jsParseIntDec_digits (p : List Char) (hne : p ≠ [])
    (hd : ∀ c ∈ p, c.isDigit) : jsParseIntDec p = some (decVal p : Int) := by
  cases p with
  | nil => exact absurd rfl hne
  | cons c r =>
    have hc : c.isDigit = true := hd c (List.mem_cons_self c r)
    have hsp : isJsSpace c = false := isJsSpace_of_digit c hc
    have hm : c ≠ '-' := char_digit_ne c hc '-' (by decide)
    have hp : c ≠ '+' := char_digit_ne c hc '+' (by decide)
    have htw : (c :: r).takeWhile Char.isDigit = c :: r :=
      List.takeWhile_eq_self_iff.mpr hd
    simp [jsParseIntDec, List.dropWhile_cons, hsp, hm, hp, digitsVal?, htw]

theorem natToBaseAux_of_lt (digit : Nat → Char) (b fuel n : Nat) (h : n < b) :
    natToBaseAux digit b fuel n = [digit n] := by
  cases fuel <;> simp [natToBaseAux, h]

/-- The rendering pipeline `parseInt(p).toString(16).padStart(2, '0')`
produces exactly the two lowercase hex digits of a value below 256. -/
theorem hexRender_le_255 (v : Nat) (hv : v ≤ 255) :
    padStart2 (jsHexString (some (v : Int))) = hexPair v := by
  have hnn : ¬((v : Int) < 0) := by omega
  rw [jsHexString, if_neg hnn]
  have htn : ((v : Int)).toNat = v := Int.toNat_natCast v
  rw [htn]
  by_cases h16 : v < 16
  · rw [natToHex, natToBaseAux_of_lt _ _ _ _ h16]
    have hd0 : v / 16 = 0 := Nat.div_eq_of_lt h16
    have hm0 : v % 16 = v := Nat.mod_eq_of_lt h16
    simp [padStart2, hexPair, hd0, hm0, hexDigitChar]
  · obtain ⟨f, rfl⟩ : ∃ f, v = f + 1 := ⟨v - 1, by omega⟩
    rw [natToHex]
    have hdiv : (f + 1) / 16 < 16 := by omega
    simp only [natToBaseAux, if_neg h16]
    rw [natToBaseAux_of_lt _ _ _ _ hdiv]
    simp [padStart2, hexPair]

/-! ## Splitting and joining lemmas -/

theorem splitOnChar_no_sep (sep : Char) (l : List Char) (h : sep ∉ l) :
    splitOnChar sep l = [l] := by
  induction l with
  | nil => rfl
  | cons c r ih =>
    have hc : ¬(c = sep) := fun e => h (e ▸ List.mem_cons_self c r)
    have hr : sep ∉ r := fun hm => h (List.mem_cons_of_mem _ hm)
    simp [splitOnChar, hc, ih hr]

theorem splitOnChar_append_sep (sep : Char) (x tail : List Char)
    (h : sep ∉ x) :
    splitOnChar sep (x ++ sep :: tail) = x :: splitOnChar sep tail := by
  induction x with
  | nil => simp [splitOnChar]
  | cons c r ih =>
    have hc : ¬(c = sep) := fun e => h (e ▸ List.mem_cons_self c r)
    have hr : sep ∉ r := fun hm => h (List.mem_cons_of_mem _ hm)
    simp [splitOnChar, hc, ih hr]

/-- Splitting recovers the parts of a separator-join when no part contains
the separator. -/
theorem splitOnChar_joinChar (sep : Char) (parts : List (List Char))
    (hne : parts ≠ []) (h : ∀ p ∈ parts, sep ∉ p) :
    splitOnChar sep (joinChar sep parts) = parts := by
  induction parts with
  | nil => exact absurd rfl hne
  | cons x rest ih =>
    cases rest with
    | nil => exact splitOnChar_no_sep sep x (h x (List.mem_cons_self x []))
    | cons y rs =>
      show splitOnChar sep (x ++ sep :: joinChar sep (y :: rs)) = _
      rw [splitOnChar_append_sep sep x _ (h x (List.mem_cons_self x _))]
      rw [ih (List.cons_ne_nil y rs)
        (fun p hp => h p (List.mem_cons_of_mem _ hp))]

/-! ## Claim C1 — the Walk Executor -/

/-- Claim C1, counterexample: a process that wrote some stdout and then
exited non-zero (or was killed at the timeout) resolves to that partial
output, not to the empty text the claim demands. -/
theorem runSnmpWalk_partial_output_counterexample :
    runSnmpWalk "192.0.2.1" "public" "2c" "1.3.6.1.2.1.17.4.3.1.2"
      (.closes 1 "partial walk output") = .ok "partial walk output" ∧
    runSnmpWalk "192.0.2.1" "public" "2c" "1.3.6.1.2.1.17.4.3.1.2"
      (.killedAtTimeout "partial walk output") = .ok "partial walk output" ∧
    ("partial walk output" : String) ≠ "" := by
  refine ⟨rfl, rfl, by decide⟩

/-- Claim C1 (amended): for every host, community, version and OID root the
Walk Executor never rejects — it always resolves; a spawn failure resolves
to the empty text; a non-zero exit or a kill at the 12-second wall-clock
timeout resolves to the stdout collected up to the close event, which is
empty only when the process emitted nothing. -/
theorem runSnmpWalk_never_raises (host community version oid : String)
    (b : ProcBehavior) :
    (∃ s, runSnmpWalk host community version oid b = .ok s) ∧
    runSnmpWalk host community version oid b = .ok b.collectedStdout ∧
    runSnmpWalk host community version oid .spawnError = .ok "" := by
  refine ⟨⟨b.collectedStdout, ?_⟩, ?_, rfl⟩ <;> cases b <;> rfl

/-! ## Claim C2 — connectivity test -/

/-- Claim C2, counterexample: on empty walk output the test returns the
German placeholder `"Keine Antwort"`, not the literal `"no response"` the
claim states. -/
theorem snmpTest_empty_output_counterexample :
    snmpTest "" = ⟨false, "Keine Antwort"⟩ ∧
    ("Keine Antwort" : String) ≠ "no response" := by
  exact ⟨by decide, by decide⟩

/-- Claim C2 (amended): the test returns `ok = true` with the extracted
(trimmed) STRING value whenever the `STRING:` pattern matches — quotes are
optional, not required; otherwise it returns `ok = false` with the first 200
characters of the *trimmed* output, or the literal `"Keine Antwort"`
placeholder when the trimmed output is empty. -/
theorem snmpTest_characterization (out : String) :
    (∀ s, sysDescrExtract out = some s → snmpTest out = ⟨true, s⟩) ∧
    (sysDescrExtract out = none →
      snmpTest out = ⟨false,
        if (jsTrim out.data).isEmpty then "Keine Antwort"
        else { data := (jsTrim out.data).take 200 }⟩) := by
  constructor
  · intro s hs
    simp [snmpTest, hs]
  · intro hn
    simp [snmpTest, hn]

/-- Witness for C2: the regex extraction really fires on a quoted
`sysDescr` line and returns its unquoted, trimmed content. -/
theorem snmpTest_characterization_witness :
    snmpTest ".1.3.6.1.2.1.1.1.0 = STRING: \"Device XYZ\"" =
      ⟨true, "Device XYZ"⟩ :=
  (snmpTest_characterization _).1 "Device XYZ" (by decide)

/-! ## Order lemmas for the sort comparator -/

theorem lexLe_total (x y : List Nat) : lexLe x y = true ∨ lexLe y x = true := by
  induction x generalizing y with
  | nil => exact Or.inl rfl
  | cons a as ih =>
    cases y with
    | nil => exact Or.inr rfl
    | cons b bs =>
      rcases Nat.lt_trichotomy a b with h | h | h
      · exact Or.inl (by simp [lexLe, h])
      · subst h
        rcases ih bs with hl | hl
        · exact Or.inl (by simp [lexLe, Nat.lt_irrefl, hl])
        · exact Or.inr (by simp [lexLe, Nat.lt_irrefl, hl])
      · exact Or.inr (by simp [lexLe, h])

theorem lexLe_trans (x y z : List Nat) (h1 : lexLe x y = true)
    (h2 : lexLe y z = true) : lexLe x z = true := by
  induction x generalizing y z with
  | nil => rfl
  | cons a as ih =>
    cases y with
    | nil => simp [lexLe] at h1
    | cons b bs =>
      cases z with
      | nil => simp [lexLe] at h2
      | cons c cs =>
        simp only [lexLe] at h1 h2 ⊢
        split_ifs at h1 h2 ⊢ <;>
          first
            | rfl
            | omega
            | (exact ih bs cs h1 h2)

instance : IsTotal ClientTableEntry entryLe :=
  ⟨fun a b => by
    unfold entryLe strNumLe
    exact lexLe_total _ _⟩

instance : IsTrans ClientTableEntry entryLe :=
  ⟨fun a b c h1 h2 => by
    unfold entryLe strNumLe at h1 h2 ⊢
    exact lexLe_trans _ _ _ h1 h2⟩

theorem sortEntries_sorted (l : List ClientTableEntry) :
    List.Sorted entryLe (sortEntries l) :=
  List.sorted_insertionSort entryLe l

theorem sortEntries_perm (l : List ClientTableEntry) :
    List.Perm (sortEntries l) l :=
  List.perm_insertionSort entryLe l

/-- On entries whose `ip` went through `x || null`, JS truthiness coincides
with presence. -/
theorem ipTruthy_jsOrNull (o : Option (List Char)) :
    ipTruthy ((jsOrNull o).map fun l => ({ data := l } : String)) =
      ((jsOrNull o).map fun l => ({ data := l } : String)).isSome := by
  cases o with
  | none => rfl
  | some s =>
    cases s with
    | nil => rfl
    | cons c t => rfl

/-- The four structural invariants of a terminal result built from a sorted
entry list whose `ip` fields respect truthiness-presence agreement. -/
theorem mkResult_invariants (l0 : List ClientTableEntry) (src : String)
    (hip : ∀ e ∈ l0, ipTruthy e.ip = e.ip.isSome) :
    (mkResult (sortEntries l0) src).count =
      (mkResult (sortEntries l0) src).entries.length ∧
    (mkResult (sortEntries l0) src).hasMacTable =
      decide (0 < (mkResult (sortEntries l0) src).entries.length) ∧
    (mkResult (sortEntries l0) src).countWithIp =
      ((mkResult (sortEntries l0) src).entries.filter
        fun e => e.ip.isSome).length ∧
    List.Sorted entryLe (mkResult (sortEntries l0) src).entries := by
  refine ⟨rfl, rfl, ?_, sortEntries_sorted l0⟩
  show ((sortEntries l0).filter fun e => ipTruthy e.ip).length = _
  congr 1
  refine List.filter_congr ?_
  intro e he
  exact hip e ((sortEntries_perm l0).mem_iff.mp he)

/-! ## Claim C3 — Q-Bridge fallback and duplicate resolution -/

theorem getJs_qInsert_ne (acc : List (List Char × Nat))
    (p : List Char × Nat) (mac : List Char) (h : mac ≠ p.1) :
    getJs (qInsert acc p) mac = getJs acc mac := by
  unfold qInsert
  cases hg : getJs acc p.1 with
  | none => exact getJs_setJs_ne acc p.1 mac p.2 h
  | some v =>
    by_cases hv : v = 0 <;>
      simp [hv, getJs_setJs_ne acc p.1 mac p.2 h]

theorem foldl_qStep_eq_pairs (lines : List (List Char))
    (acc : List (List Char × Nat)) :
    lines.foldl qStep acc = (lines.filterMap parseQLine).foldl qInsert acc := by
  induction lines generalizing acc with
  | nil => rfl
  | cons l r ih =>
    cases h : parseQLine l <;>
      simp [List.foldl_cons, qStep, h, List.filterMap_cons, ih]

/-- Fold characterization of the Q-Bridge merge: the final port stored for a
MAC combines the incoming value with the ports of the matching pairs, first
non-zero port winning. -/
theorem getJs_foldl_qInsert (pairs : List (List Char × Nat))
    (acc : List (List Char × Nat)) (mac : List Char) :
    getJs (pairs.foldl qInsert acc) mac =
      qCombine (getJs acc mac) ((pairs.filter fun e => e.1 = mac).map (·.2)) := by
  induction pairs generalizing acc with
  | nil =>
    cases h : getJs acc mac with
    | none => simp [qCombine, h]
    | some v => by_cases hv : v = 0 <;> simp [qCombine, h, hv]
  | cons p rest ih =>
    simp only [List.foldl_cons]
    rw [ih]
    by_cases hm : p.1 = mac
    · rw [List.filter_cons_of_pos (by simp [hm])]
      simp only [List.map_cons]
      cases hg : getJs acc mac with
      | none =>
        have hins : getJs (qInsert acc p) mac = some p.2 := by
          unfold qInsert
          rw [hm, hg]
          exact getJs_setJs_self acc mac p.2
        rw [hins]
        by_cases hp2 : p.2 = 0 <;>
          simp [qCombine, List.find?_cons, hp2]
      | some v =>
        by_cases hv : v = 0
        · subst hv
          have hins : getJs (qInsert acc p) mac = some p.2 := by
            unfold qInsert
            simp [hm, hg, getJs_setJs_self]
          rw [hins]
          by_cases hp2 : p.2 = 0 <;>
            simp [qCombine, List.find?_cons, hp2]
        · have hins : getJs (qInsert acc p) mac = some v := by
            unfold qInsert
            simp [hm, hg, hv]
          rw [hins]
          simp [qCombine, hv]
    · rw [List.filter_cons_of_neg (by simp [hm])]
      rw [getJs_qInsert_ne acc p mac (fun e => hm e.symm)]

/-- The Q-Bridge builder, characterized per MAC. -/
theorem getJs_buildQFdb (q : String) (mac : List Char) :
    getJs (buildQFdb q) mac = qCombine none (qPortsOf q mac) := by
  unfold buildQFdb qPortsOf qPairs
  rw [foldl_qStep_eq_pairs, getJs_foldl_qInsert]
  rfl

/-- Claim C3, counterexample: the first-encountered line for the MAC reports
port 0, yet the final stored port is 7 from the *later* VLAN — the
first-encountered port does not win, because `!macToBp[mac]` treats a stored
0 as absent. -/
theorem qBridge_first_seen_counterexample :
    parseQLine "17.7.1.2.2.1.2.10.0.17.34.51.68.85 = INTEGER: 0".data =
      some ("00:11:22:33:44:55".data, 0) ∧
    getJs (buildQFdb qWalkZeroFirst) "00:11:22:33:44:55".data = some 7 ∧
    (7 : Nat) ≠ 0 := by
  exact ⟨by decide, by decide, by decide⟩

/-- Claim C3 (amended): when classic Bridge-MIB parsing yields zero entries
the builder parses the Q-Bridge walk instead (whose regex discards the
leading VLAN id before the 6 MAC octets); for a MAC appearing on several
matching lines the first-encountered *non-zero* port wins — lines whose
stored port is 0 are treated as absent and overwritten by later lines, so a
MAC all of whose lines report port 0 ends at port 0. -/
theorem qBridge_fallback_characterization (fdbOut qfdbOut : String)
    (mac : List Char) :
    (buildClassicFdb fdbOut = [] → macToBpOf fdbOut qfdbOut = buildQFdb qfdbOut) ∧
    getJs (buildQFdb qfdbOut) mac =
      (match qPortsOf qfdbOut mac with
       | [] => none
       | ps => some ((ps.find? fun p => p != 0).getD 0)) := by
  constructor
  · intro h
    simp [macToBpOf, h]
  · rw [getJs_buildQFdb]
    cases qPortsOf qfdbOut mac <;> rfl

/-- Witness for C3: with empty classic output and the same MAC under VLAN 10
(port 3) and VLAN 20 (port 7), the fallback runs and keeps port 3. -/
theorem qBridge_fallback_characterization_witness :
    macToBpOf "" qWalkTwoVlans = buildQFdb qWalkTwoVlans ∧
    getJs (buildQFdb qWalkTwoVlans) "00:11:22:33:44:55".data = some 3 :=
  ⟨(qBridge_fallback_characterization "" qWalkTwoVlans []).1 (by decide),
   by decide⟩

/-! ## Claim C4 — `macFromDecOid` -/

/-- Claim C4, counterexample: a suffix with exactly 6 components but a
non-decimal (empty) last component does *not* yield `null` — `parseInt`
yields `NaN` and the function returns a `"NaN"`-carrying string. -/
theorem macFromDecOid_format_counterexample :
    macFromDecOid "1.2.3.4.5." = some "01:02:03:04:05:NaN" ∧
    macFromDecOid "1.2.3.4.5." ≠ none := by
  exact ⟨by decide, by decide⟩

/-- Claim C4 (amended): `macFromDecOid` yields `null` exactly for suffixes
whose dot-split has a component count other than 6 — component *format* is
not validated; every 6-component sequence of decimal octets `0..255`
round-trips to the two-digit lowercase hex pairs joined by colons. -/
theorem macFromDecOid_characterization :
    (∀ s : String, (splitOnChar '.' s.data).length ≠ 6 →
      macFromDecOid s = none) ∧
    (∀ parts : List (List Char), parts.length = 6 →
      (∀ p ∈ parts, p ≠ [] ∧ ∀ c ∈ p, c.isDigit) →
      (∀ p ∈ parts, decVal p ≤ 255) →
      macFromDecOid { data := joinChar '.' parts } =
        some { data := joinChar ':' (parts.map fun p => hexPair (decVal p)) }) := by
  constructor
  · intro s h
    simp [macFromDecOid, macFromDecOidL, h]
  · intro parts h6 hdig h255
    have hne : parts ≠ [] := by
      intro e
      rw [e] at h6
      simp at h6
    have hnosep : ∀ p ∈ parts, '.' ∉ p := by
      intro p hp hmem
      have := (hdig p hp).2 '.' hmem
      exact absurd this (by decide)
    have hsplit := splitOnChar_joinChar '.' parts hne hnosep
    have hL : macFromDecOidL (joinChar '.' parts) =
        some (joinChar ':' (parts.map fun p => hexPair (decVal p))) := by
      simp only [macFromDecOidL]
      rw [hsplit, if_pos h6]
      congr 1
      congr 1
      refine List.map_congr_left ?_
      intro p hp
      rw [jsParseIntDec_digits p (hdig p hp).1 (hdig p hp).2]
      exact hexRender_le_255 (decVal p) (h255 p hp)
    show (macFromDecOidL (joinChar '.' parts)).map _ = _
    rw [hL]
    rfl

/-- Witness for C4: the octet sequence `170.187.204.221.238.255`
round-trips to `aa:bb:cc:dd:ee:ff`. -/
theorem macFromDecOid_characterization_witness :
    macFromDecOid { data := joinChar '.' sampleOctets } =
      some { data := joinChar ':' (sampleOctets.map fun p => hexPair (decVal p)) } ∧
    macFromDecOid "170.187.204.221.238.255" = some "aa:bb:cc:dd:ee:ff" :=
  ⟨macFromDecOid_characterization.2 sampleOctets
      (by decide) (by decide) (by decide),
   by decide⟩

/-! ## Claim C6 — fallback policy of the resolver -/

/-- Claim C6 (confirmed): a non-empty bridge join terminates with
`source = "bridge"` and the result does not depend on what the WLAN-fallback
walks would return (the fallback is never invoked); the WLAN fallback runs
exactly when the bridge entry set is empty; and when both strategies yield
nothing the resolver returns the valid result
`⟨[], 0, 0, false, "wlan-clients"⟩`. -/
theorem resolver_fallback_policy (f q b n a c s w : String) :
    (bridgeSorted f q b n a ≠ [] →
      (snmpMacTable f q b n a c s w).source = "bridge" ∧
      ∀ c' s' w', snmpMacTable f q b n a c s w =
        snmpMacTable f q b n a c' s' w') ∧
    (bridgeSorted f q b n a = [] →
      snmpMacTable f q b n a c s w = snmpLancomWlanClients c s w) ∧
    (bridgeSorted f q b n a = [] →
      (snmpLancomWlanClients c s w).entries = [] →
      snmpMacTable f q b n a c s w = ⟨[], 0, 0, false, "wlan-clients"⟩) := by
  refine ⟨?_, ?_, ?_⟩
  · intro h
    have hb : (bridgeSorted f q b n a).isEmpty = false := by
      cases hl : bridgeSorted f q b n a with
      | nil => exact absurd hl h
      | cons x xs => rfl
    constructor
    · simp [snmpMacTable, hb, mkResult]
    · intro c' s' w'
      simp [snmpMacTable, hb]
  · intro h
    have hb : (bridgeSorted f q b n a).isEmpty = true := by rw [h]; rfl
    simp [snmpMacTable, hb]
  · intro h hw
    have hb : (bridgeSorted f q b n a).isEmpty = true := by rw [h]; rfl
    have h1 : snmpMacTable f q b n a c s w = snmpLancomWlanClients c s w := by
      simp [snmpMacTable, hb]
    have h2 : snmpLancomWlanClients c s w =
        mkResult (snmpLancomWlanClients c s w).entries "wlan-clients" := rfl
    rw [h1, h2, hw]
    rfl

/-- Witness for C6: a walk with one classic Bridge-MIB entry terminates in
the bridge strategy whatever the WLAN walks would say. -/
theorem resolver_fallback_policy_witness :
    (snmpMacTable fdbSampleWalk "" "" "" "" "" "" "").source = "bridge" ∧
    ∀ c' s' w', snmpMacTable fdbSampleWalk "" "" "" "" "" "" "" =
      snmpMacTable fdbSampleWalk "" "" "" "" c' s' w' :=
  (resolver_fallback_policy fdbSampleWalk "" "" "" "" "" "" "").1 (by decide)

/-! ## Claim C7 — synthesized WLAN entries -/

theorem wlanBase_eq (sm : List (List Char × List Char)) (mac : List Char) :
    wlanBase sm mac =
      (match getJs sm mac with
       | some ssid => if ssid = [] then "WLAN".data else "WLAN: ".data ++ ssid
       | none => "WLAN".data) := by
  unfold wlanBase
  cases hs : getJs sm mac with
  | none => rfl
  | some ssid => cases ssid <;> rfl

theorem wlanBandSfx_eq (b : Option Nat) :
    wlanBandSfx b =
      (match b with
       | some bv =>
         if bv = 1 then " (2.4G)".data
         else if bv = 2 then " (5G)".data else []
       | none => []) := by
  rcases b with _ | bv
  · rfl
  · by_cases h0 : bv = 0
    · subst h0
      rfl
    · simp [wlanBandSfx, h0]

theorem wlanChSfx_eq (c : Option Nat) :
    wlanChSfx c =
      (match c with
       | some v => if v = 0 then [] else " CH".data ++ natToDec v
       | none => []) := by
  rcases c with _ | v
  · rfl
  · by_cases h0 : v = 0
    · subst h0
      rfl
    · simp [wlanChSfx, h0]

/-- Claim C7, counterexample: a client whose channel column reports 0 has a
*known* channel (0), yet no `" CH0"` suffix is appended — `if (c.channel)`
treats channel 0 as unknown. -/
theorem wlan_channel_zero_counterexample :
    (snmpLancomWlanClients "2356.13.1.3.4.1.1.2.0.17.34.51.68.85 = INTEGER: 0"
        "" "").entries =
      [⟨"00:11:22:33:44:55", 0, "WLAN", none⟩] ∧
    ("WLAN" : String) ≠ "WLAN CH0" := by
  exact ⟨by decide, by decide⟩

/-- Claim C7 (amended): every entry of the WLAN fallback has
`portName = "WLAN: " + ssid` when a *non-empty* SSID resolved, plain
`"WLAN"` otherwise; a `" (2.4G)"` / `" (5G)"` suffix for band 1 / 2 and no
suffix for any other band value; a `" CH" + channel` suffix when the channel
is known *and non-zero* (channel 0 yields no suffix); `bridgePort = 0`;
`ip` the ARP-resolved address or null; and the result carries
`source = "wlan-clients"`. -/
theorem wlanEntry_characterization (sm im : List (List Char × List Char))
    (cl : WlanClient) :
    (wlanEntryOf sm im cl).mac = { data := cl.mac } ∧
    (wlanEntryOf sm im cl).bridgePort = 0 ∧
    (wlanEntryOf sm im cl).ip =
      (jsOrNull (getJs im cl.mac)).map (fun l => ({ data := l } : String)) ∧
    (wlanEntryOf sm im cl).portName.data =
      (match getJs sm cl.mac with
       | some ssid => if ssid = [] then "WLAN".data else "WLAN: ".data ++ ssid
       | none => "WLAN".data) ++
      (match cl.band with
       | some bv =>
         if bv = 1 then " (2.4G)".data
         else if bv = 2 then " (5G)".data else []
       | none => []) ++
      (match cl.channel with
       | some v => if v = 0 then [] else " CH".data ++ natToDec v
       | none => []) ∧
    (∀ a b d : String,
      (snmpLancomWlanClients a b d).source = "wlan-clients" ∧
      ∀ e ∈ (snmpLancomWlanClients a b d).entries,
        ∃ p ∈ buildClients a,
          e = wlanEntryOf (buildMacToSsid b) (buildMacToIp d) p.2) := by
  refine ⟨rfl, rfl, rfl, ?_, ?_⟩
  · show wlanBase sm cl.mac ++ wlanBandSfx cl.band ++ wlanChSfx cl.channel = _
    rw [wlanBase_eq, wlanBandSfx_eq, wlanChSfx_eq]
  · intro a b d
    refine ⟨rfl, ?_⟩
    intro e he
    have he2 : e ∈ (buildClients a).map
        (fun p => wlanEntryOf (buildMacToSsid b) (buildMacToIp d) p.2) :=
      (sortEntries_perm _).mem_iff.mp he
    obtain ⟨p, hp, rfl⟩ := List.mem_map.mp he2
    exact ⟨p, hp, rfl⟩

/-- Witness for C7: the spec's own scenario — SSID `"Guest"`, band 2,
channel 36, IP `10.0.0.5` — produces the entry
`portName = "WLAN: Guest (5G) CH36"`, `bridgePort = 0`, through the
synthesis function, with `source = "wlan-clients"`. -/
theorem wlanEntry_characterization_witness :
    (snmpLancomWlanClients wlanClientWalk wlanSsidWalk wlanArpWalk).source =
      "wlan-clients" ∧
    (∃ p ∈ buildClients wlanClientWalk,
      (⟨"aa:bb:cc:dd:ee:ff", 0, "WLAN: Guest (5G) CH36", some "10.0.0.5"⟩ :
        ClientTableEntry) =
        wlanEntryOf (buildMacToSsid wlanSsidWalk) (buildMacToIp wlanArpWalk) p.2) := by
  have h := (wlanEntry_characterization [] [] ⟨[], none, none⟩).2.2.2.2
    wlanClientWalk wlanSsidWalk wlanArpWalk
  exact ⟨h.1, h.2 _ (by decide)⟩

/-! ## Claim C8 — result-shape invariants and sortedness -/

/-- Claim C8 (confirmed): every result of the resolver satisfies
`count = entries.length`, `hasMacTable = (entries.length > 0)`,
`countWithIp = number of entries with a non-null ip`, and its entry sequence
is sorted by `portName` under the numeric-aware comparator modelling
`localeCompare(…, undefined, {numeric: true})` — in particular
`"Port 2"` sorts before `"Port 10"`. -/
theorem clientTableResult_invariants (f q b n a c s w : String) :
    (snmpMacTable f q b n a c s w).count =
      (snmpMacTable f q b n a c s w).entries.length ∧
    (snmpMacTable f q b n a c s w).hasMacTable =
      decide (0 < (snmpMacTable f q b n a c s w).entries.length) ∧
    (snmpMacTable f q b n a c s w).countWithIp =
      ((snmpMacTable f q b n a c s w).entries.filter
        fun e => e.ip.isSome).length ∧
    List.Sorted entryLe (snmpMacTable f q b n a c s w).entries ∧
    strNumLe "Port 2" "Port 10" = true ∧
    strNumLe "Port 10" "Port 2" = false := by
  have hwlan : ∀ e ∈ (buildClients c).map
      (fun p => wlanEntryOf (buildMacToSsid s) (buildMacToIp w) p.2),
      ipTruthy e.ip = e.ip.isSome := by
    intro e he
    obtain ⟨x, hx, rfl⟩ := List.mem_map.mp he
    exact ipTruthy_jsOrNull _
  have hbr : ∀ e ∈ bridgeEntriesUnsorted f q b n a,
      ipTruthy e.ip = e.ip.isSome := by
    intro e he
    obtain ⟨x, hx, rfl⟩ := List.mem_map.mp he
    exact ipTruthy_jsOrNull _
  by_cases hb : (bridgeSorted f q b n a).isEmpty = true
  · have hr : snmpMacTable f q b n a c s w = snmpLancomWlanClients c s w := by
      simp [snmpMacTable, hb]
    rw [hr]
    have hinv := mkResult_invariants ((buildClients c).map
      (fun p => wlanEntryOf (buildMacToSsid s) (buildMacToIp w) p.2))
      "wlan-clients" hwlan
    exact ⟨hinv.1, hinv.2.1, hinv.2.2.1, hinv.2.2.2, by decide, by decide⟩
  · have hr : snmpMacTable f q b n a c s w =
        mkResult (bridgeSorted f q b n a) "bridge" := by
      simp [snmpMacTable, hb]
    rw [hr]
    have hinv := mkResult_invariants (bridgeEntriesUnsorted f q b n a)
      "bridge" hbr
    exact ⟨hinv.1, hinv.2.1, hinv.2.2.1, hinv.2.2.2, by decide, by decide⟩

/-! ## Claim C5 — `macFromHexStr` -/

/-- Claim C5, counterexample: twelve *non-hex* characters survive the
length-12 check (hex-ness is never validated) and produce a pseudo-MAC
instead of the `null` the claim demands. -/
theorem macFromHexStr_nonhex_counterexample :
    macFromHexStr "zzzzzzzzzzzz" = some "zz:zz:zz:zz:zz:zz" ∧
    macFromHexStr "zzzzzzzzzzzz" ≠ none := by
  exact ⟨by decide, by decide⟩

/-- Claim C5 (amended): `macFromHexStr` strips colons/whitespace and
lower-cases; it yields a result exactly when the stripped remainder has
length 12 (its characters are *not* checked to be hex digits), in which case
the result is the byte pairs of the stripped, lower-cased remainder joined
by colons; consequently any two inputs with the same stripped form — any
separator placement and letter case — yield the identical output. -/
theorem macFromHexStr_characterization :
    (∀ s : String, (stripLower s.data).length ≠ 12 → macFromHexStr s = none) ∧
    (∀ s : String, (stripLower s.data).length = 12 →
      macFromHexStr s = some { data := joinChar ':' (chunk2 (stripLower s.data)) }) ∧
    (∀ s t : String, stripLower s.data = stripLower t.data →
      macFromHexStr s = macFromHexStr t) := by
  refine ⟨?_, ?_, ?_⟩
  · intro s h
    simp [macFromHexStr, macFromHexStrL, h]
  · intro s h
    simp [macFromHexStr, macFromHexStrL, h]
  · intro s t h
    simp [macFromHexStr, macFromHexStrL, h]

/-- Witness for C5: separator and case variants of the same 12 hex digits
normalize to the same canonical MAC. -/
theorem macFromHexStr_characterization_witness :
    macFromHexStr "AA:bb cc DD:ee:ff" = macFromHexStr "aabbccddeeff" ∧
    macFromHexStr "AA:bb cc DD:ee:ff" = some "aa:bb:cc:dd:ee:ff" :=
  ⟨macFromHexStr_characterization.2.2 _ _ (by decide), by decide⟩

/-! ## Claim C9 — WLAN entries come from client-table lines only -/

theorem getJs_updateClient_isSome (acc : List (List Char × WlanClient))
    (mac mk : List Char) (f : WlanClient → WlanClient) :
    (getJs (updateClient acc mac f) mk).isSome = (getJs acc mk).isSome := by
  induction acc with
  | nil => rfl
  | cons e r ih =>
    show (getJs ((if e.1 = mac then (e.1, f e.2) else e) :: updateClient r mac f)
      mk).isSome = _
    have hkey : (if e.1 = mac then (e.1, f e.2) else e).1 = e.1 := by
      by_cases he : e.1 = mac <;> simp [he]
    rw [getJs_cons, getJs_cons, hkey]
    by_cases hk : e.1 = mk
    · rw [if_pos hk, if_pos hk]
      rfl
    · rw [if_neg hk, if_neg hk]
      exact ih

/-- `clientApply` never adds or removes a key. -/
theorem getJs_clientApply_isSome (acc1 : List (List Char × WlanClient))
    (mac mk : List Char) (col : Nat) (val : List Char) :
    (getJs (clientApply acc1 mac col val) mk).isSome = (getJs acc1 mk).isSome := by
  unfold clientApply
  split
  · by_cases hc2 : col = 2
    · rw [if_pos hc2]
      exact getJs_updateClient_isSome _ _ _ _
    · rw [if_neg hc2]
      by_cases hc3 : col = 3
      · rw [if_pos hc3]
        exact getJs_updateClient_isSome _ _ _ _
      · rw [if_neg hc3]
  · rfl

theorem getJs_clientStep_isSome (acc : List (List Char × WlanClient))
    (line mk : List Char) :
    ((getJs (clientStep acc line) mk).isSome = true ↔
      ((getJs acc mk).isSome = true ∨
        ∃ col val, parseClientLine line = some (col, mk, val))) := by
  unfold clientStep
  cases hp : parseClientLine line with
  | none =>
    simp
  | some t =>
    obtain ⟨col, mac, val⟩ := t
    have hex : (∃ col' val', (some (col, mac, val) :
        Option (Nat × List Char × List Char)) = some (col', mk, val')) ↔
        mk = mac := by
      constructor
      · rintro ⟨c', v', he⟩
        injection he with he2
        have h3 : mac = mk :=
          congrArg (fun t : Nat × List Char × List Char => t.2.1) he2
        exact h3.symm
      · rintro rfl
        exact ⟨col, val, rfl⟩
    have h1 : ((getJs (if (getJs acc mac).isSome then acc
          else acc ++ [(mac, (⟨mac, none, none⟩ : WlanClient))]) mk).isSome = true ↔
        ((getJs acc mk).isSome = true ∨ mk = mac)) := by
      by_cases hs : (getJs acc mac).isSome = true
      · rw [if_pos hs]
        constructor
        · exact Or.inl
        · rintro (h | rfl)
          · exact h
          · exact hs
      · rw [if_neg hs, getJs_append]
        by_cases hk : mac = mk
        · subst hk
          have hone : getJs [(mac, (⟨mac, none, none⟩ : WlanClient))] mac =
              some ⟨mac, none, none⟩ := by
            simp [getJs_cons]
          rw [hone]
          cases hg : getJs acc mac <;> simp [Option.or]
        · have hone : getJs [(mac, (⟨mac, none, none⟩ : WlanClient))] mk = none := by
            simp [getJs_cons, getJs_nil, hk]
          rw [hone]
          have hk' : ¬mk = mac := fun e => hk e.symm
          cases hg : getJs acc mk <;> simp [Option.or, hk']
    rw [getJs_clientApply_isSome, h1, hex]

theorem getJs_foldl_clientStep_isSome (lines : List (List Char))
    (acc : List (List Char × WlanClient)) (mk : List Char) :
    ((getJs (lines.foldl clientStep acc) mk).isSome = true ↔
      ((getJs acc mk).isSome = true ∨
        ∃ line ∈ lines, ∃ col val, parseClientLine line = some (col, mk, val))) := by
  induction lines generalizing acc with
  | nil =>
    constructor
    · exact Or.inl
    · rintro (h | ⟨x, hx, _⟩)
      · exact h
      · exact absurd hx (List.not_mem_nil x)
  | cons l r ih =>
    rw [List.foldl_cons, ih, getJs_clientStep_isSome]
    constructor
    · rintro ((hA | ⟨col, val, hp⟩) | ⟨x, hx, col, val, hp⟩)
      · exact Or.inl hA
      · exact Or.inr ⟨l, List.mem_cons_self l r, col, val, hp⟩
      · exact Or.inr ⟨x, List.mem_cons_of_mem l hx, col, val, hp⟩
    · rintro (hA | ⟨x, hx, col, val, hp⟩)
      · exact Or.inl (Or.inl hA)
      · rcases List.mem_cons.mp hx with rfl | hx'
        · exact Or.inl (Or.inr ⟨col, val, hp⟩)
        · exact Or.inr ⟨x, hx', col, val, hp⟩

theorem updateClient_mac_inv (acc : List (List Char × WlanClient))
    (mac : List Char) (f : WlanClient → WlanClient)
    (hf : ∀ c, (f c).mac = c.mac) (h : ∀ p ∈ acc, p.2.mac = p.1) :
    ∀ p ∈ updateClient acc mac f, p.2.mac = p.1 := by
  intro p hp
  obtain ⟨q, hq, rfl⟩ := List.mem_map.mp hp
  by_cases he : q.1 = mac
  · rw [if_pos he]
    show (f q.2).mac = q.1
    rw [hf]
    exact h q hq
  · rw [if_neg he]
    exact h q hq

theorem clientApply_mac_inv (acc1 : List (List Char × WlanClient))
    (mac : List Char) (col : Nat) (val : List Char)
    (h : ∀ p ∈ acc1, p.2.mac = p.1) :
    ∀ p ∈ clientApply acc1 mac col val, p.2.mac = p.1 := by
  unfold clientApply
  split
  · by_cases hc2 : col = 2
    · rw [if_pos hc2]
      exact updateClient_mac_inv _ _ _ (fun c => rfl) h
    · rw [if_neg hc2]
      by_cases hc3 : col = 3
      · rw [if_pos hc3]
        exact updateClient_mac_inv _ _ _ (fun c => rfl) h
      · rw [if_neg hc3]
        exact h
  · exact h

theorem clientStep_mac_inv (acc : List (List Char × WlanClient))
    (line : List Char) (h : ∀ p ∈ acc, p.2.mac = p.1) :
    ∀ p ∈ clientStep acc line, p.2.mac = p.1 := by
  unfold clientStep
  cases hp : parseClientLine line with
  | none => exact h
  | some t =>
    obtain ⟨col, mac, val⟩ := t
    apply clientApply_mac_inv
    by_cases hs : (getJs acc mac).isSome = true
    · rw [if_pos hs]
      exact h
    · rw [if_neg hs]
      intro p hp2
      rcases List.mem_append.mp hp2 with hp3 | hp3
      · exact h p hp3
      · rcases List.mem_singleton.mp hp3 with rfl
        rfl

theorem buildClients_mac_inv (ct : String) :
    ∀ p ∈ buildClients ct, p.2.mac = p.1 := by
  have hgen : ∀ (lines : List (List Char)) (acc : List (List Char × WlanClient)),
      (∀ p ∈ acc, p.2.mac = p.1) →
      ∀ p ∈ lines.foldl clientStep acc, p.2.mac = p.1 := by
    intro lines
    induction lines with
    | nil => exact fun acc h => h
    | cons l r ih =>
      intro acc h
      exact ih (clientStep acc l) (clientStep_mac_inv acc l h)
  exact hgen _ [] (by intro p hp; exact absurd hp (List.not_mem_nil p))

/-- Claim C9 (confirmed): a MAC owns an entry of the WLAN fallback result
exactly when some line of the client-table walk matches the client pattern
and decodes to that MAC; MACs appearing only in the SSID or ARP walks create
no entry — those walks only decorate entries created from the client walk. -/
theorem wlan_entry_iff_client_line (c s a : String) (mac : String) :
    (∃ e ∈ (snmpLancomWlanClients c s a).entries, e.mac = mac) ↔
    (∃ line ∈ splitOnChar '\n' c.data,
      ∃ col val, parseClientLine line = some (col, mac.data, val)) := by
  constructor
  · rintro ⟨e, he, hm⟩
    have he2 : e ∈ (buildClients c).map
        (fun p => wlanEntryOf (buildMacToSsid s) (buildMacToIp a) p.2) :=
      (sortEntries_perm _).mem_iff.mp he
    obtain ⟨p, hp, rfl⟩ := List.mem_map.mp he2
    have hpm : p.2.mac = mac.data := congrArg String.data hm
    have hkey : p.1 = mac.data := by
      rw [← buildClients_mac_inv c p hp, hpm]
    have hsome : (getJs (buildClients c) mac.data).isSome = true :=
      (getJs_isSome_iff_mem _ _).mpr ⟨p, hp, hkey⟩
    rcases (getJs_foldl_clientStep_isSome (splitOnChar '\n' c.data) []
        mac.data).mp hsome with h0 | hex
    · simp [getJs_nil] at h0
    · exact hex
  · rintro ⟨line, hline, col, val, hp⟩
    have hsome : (getJs (buildClients c) mac.data).isSome = true :=
      (getJs_foldl_clientStep_isSome (splitOnChar '\n' c.data) [] mac.data).mpr
        (Or.inr ⟨line, hline, col, val, hp⟩)
    obtain ⟨p, hp2, hk⟩ := (getJs_isSome_iff_mem _ _).mp hsome
    refine ⟨wlanEntryOf (buildMacToSsid s) (buildMacToIp a) p.2, ?_, ?_⟩
    · exact (sortEntries_perm _).mem_iff.mpr (List.mem_map.mpr ⟨p, hp2, rfl⟩)
    · show ({ data := p.2.mac } : String) = mac
      rw [buildClients_mac_inv c p hp2, hk]

/-- Witness for C9: the sample client walk creates an entry for the MAC its
client-table line decodes to. -/
theorem wlan_entry_iff_client_line_witness :
    ∃ e ∈ (snmpLancomWlanClients wlanClientWalk "" "").entries,
      e.mac = "aa:bb:cc:dd:ee:ff" :=
  (wlan_entry_iff_client_line wlanClientWalk "" "" "aa:bb:cc:dd:ee:ff").mpr
    ⟨"2356.13.1.3.4.1.1.2.170.187.204.221.238.255 = INTEGER: 36".data,
     by decide, 2, "INTEGER: 36".data, by decide⟩

/-! ## Claim C10 — bridge port-name resolution -/

/-- Claim C10 (confirmed): an entry of the bridge join takes the looked-up
interface name exactly when its bridge port maps to a non-zero `ifIndex`
whose name lookup yields a non-empty name; an unresolved `ifIndex`,
`ifIndex` 0, a missing name and an empty name all fall back to the
synthesized `"Port " + bridgePort`. -/
theorem bridge_portName_resolution :
    (∀ (bpToIf : List (List Char × Nat))
        (ifNames : List (List Char × List Char)) (bp : Nat),
      (getJs bpToIf (natToDec bp) = none →
        bridgePortName bpToIf ifNames bp = portFallback bp) ∧
      (getJs bpToIf (natToDec bp) = some 0 →
        bridgePortName bpToIf ifNames bp = portFallback bp) ∧
      (∀ i, getJs bpToIf (natToDec bp) = some i → i ≠ 0 →
        getJs ifNames (natToDec i) = none →
        bridgePortName bpToIf ifNames bp = portFallback bp) ∧
      (∀ i, getJs bpToIf (natToDec bp) = some i → i ≠ 0 →
        getJs ifNames (natToDec i) = some [] →
        bridgePortName bpToIf ifNames bp = portFallback bp) ∧
      (∀ i nm, getJs bpToIf (natToDec bp) = some i → i ≠ 0 →
        getJs ifNames (natToDec i) = some nm → nm ≠ [] →
        bridgePortName bpToIf ifNames bp = nm)) ∧
    (∀ f q b n a, ∀ e ∈ bridgeEntriesUnsorted f q b n a,
      ∃ p ∈ macToBpOf f q,
        e.bridgePort = p.2 ∧
        e.portName =
          { data := bridgePortName (buildBpToIf b) (buildIfNames n) p.2 }) := by
  constructor
  · intro bpToIf ifNames bp
    refine ⟨?_, ?_, ?_, ?_, ?_⟩
    · intro h
      simp [bridgePortName, h]
    · intro h
      simp [bridgePortName, h]
    · intro i hi hnz hn
      simp [bridgePortName, hi, hnz, hn]
    · intro i hi hnz hn
      simp [bridgePortName, hi, hnz, hn]
    · intro i nm hi hnz hn hne
      have : nm.isEmpty = false := by
        cases nm with
        | nil => exact absurd rfl hne
        | cons x xs => rfl
      simp [bridgePortName, hi, hnz, hn, this]
  · intro f q b n a e he
    obtain ⟨p, hp, rfl⟩ := List.mem_map.mp he
    exact ⟨p, hp, rfl, rfl⟩

/-- Witness for C10: a bridge port resolved to ifIndex 5 whose name is
empty falls back to the synthesized `"Port 1"`. -/
theorem bridge_portName_resolution_witness :
    getJs [("1".data, 5)] (natToDec 1) = some 5 ∧
    getJs [("5".data, ([] : List Char))] (natToDec 5) = some [] ∧
    bridgePortName [("1".data, 5)] [("5".data, [])] 1 = portFallback 1 ∧
    portFallback 1 = "Port 1".data :=
  ⟨by decide, by decide,
   (bridge_portName_resolution.1 [("1".data, 5)] [("5".data, [])] 1).2.2.2.1 5
     (by decide) (by decide) (by decide),
   by decide⟩

end LmcWeb
